import Mathlib

/-!
Verification of the movie-catalog repository: the SQLite storage layer
(`movie_storage_sql.py`) and the catalog service built on it (`movies.py`).

Embedding choices:
* The movies table is a `List MovieRecord` in rowid (insertion) order; the
  surrogate `id` column is never exposed and is not modelled.
* SQL `REAL` ratings are modelled as `Rat`, `INTEGER` years as `Int`,
  `TEXT` as `String`.
* The Python dict returned by `list_movies` is an ordered association list
  `List (String × MovieInfo)`; `dictInsert` reproduces Python dict
  assignment (overwrite in place, append when fresh).
* Each storage function's `print` calls are modelled by a `StorageReport`
  value returned alongside the new table state.  An except clause converts
  only the exception kinds it names into a report; `list_movies` returns
  `Except` because a failure that is not an `OperationalError` (e.g. the
  `DatabaseError` of a corrupt store) matches no clause and propagates.
-/

structure MovieInfo where
  year : Int
  rating : Rat
  poster_url : String
deriving DecidableEq, Repr

structure MovieRecord where
  title : String
  year : Int
  rating : Rat
  poster_url : String
deriving DecidableEq, Repr

/-- The row of the table projected to the three non-key columns, as
`list_movies` returns it. -/
def MovieRecord.info (r : MovieRecord) : MovieInfo :=
  ⟨r.year, r.rating, r.poster_url⟩

/-- Messages printed by the storage layer (`movie_storage_sql.py`), one
constructor per `print` site. -/
inductive StorageReport where
  | added (title : String)
  | duplicateKey (title : String)
  | deleted (title : String)
  | updated (title : String)
  | notFound (title : String)
deriving DecidableEq, Repr

/-- Python dict assignment `d[k] = v` on an ordered dict represented as an
association list: overwrite in place when the key exists, append otherwise. -/
def dictInsert (d : List (String × MovieInfo)) (k : String) (v : MovieInfo) :
    List (String × MovieInfo) :=
  if d.any fun p => p.1 == k then d.map fun p => if p.1 == k then (k, v) else p
  else d ++ [(k, v)]

/-- The dict comprehension in `list_movies` (lines 32-39 of
`movie_storage_sql.py`): fold the selected rows into a dict. -/
def buildDict (rows : List MovieRecord) : List (String × MovieInfo) :=
  rows.foldl (fun d r => dictInsert d r.title r.info) []

/-- Python dict lookup `d[k]` (partiality modelled with `Option`). -/
def dictLookup (d : List (String × MovieInfo)) (k : String) : Option MovieInfo :=
  Option.map (fun p => p.2) (d.find? fun p => p.1 == k)

/-- Exception kinds the SQLAlchemy/SQLite storage layer raises.  The source
imports and catches only `OperationalError` (store unreachable, missing
table); other failures — e.g. a corrupt store file, where SQLite's
SQLITE_CORRUPT / SQLITE_NOTADB surface as a `DatabaseError` that is not an
`OperationalError` — match no except clause in `movie_storage_sql.py`. -/
inductive DBError where
  | operational (msg : String)
  | databaseError (msg : String)
deriving DecidableEq, Repr

/-- State of the backing store as seen through the SQLAlchemy connection:
either the table rows, or a query that raises one of the `DBError` kinds. -/
inductive DBState where
  | ok (rows : List MovieRecord)
  | failing (e : DBError)

/-- The raw `SELECT title, year, rating, poster_url FROM movies`: yields the
rows, or raises (modelled with `Except`) the failure's exception kind. -/
def selectAllRows : DBState → Except DBError (List MovieRecord)
  | .ok rows => .ok rows
  | .failing e => .error e

/-- `list_movies` (lines 24-42): run the select inside `try`.  The single
`except OperationalError` clause prints a diagnostic and returns the empty
dict for exactly that kind; any other exception kind propagates to the
caller, modelled by the `Except.error` result.  The `List String` component
collects the printed diagnostics. -/
def list_movies (db : DBState) :
    Except DBError (List (String × MovieInfo) × List String) :=
  match selectAllRows db with
  | .ok rows => .ok (buildDict rows, [])
  | .error (DBError.operational e) => .ok ([], ["Database error: " ++ e])
  | .error (DBError.databaseError e) => .error (DBError.databaseError e)

/-- `add_movie` (lines 45-66): `INSERT INTO movies ...`.  The `UNIQUE`
constraint on `title` raises `IntegrityError` exactly when the title is
already present, which the function catches and reports; otherwise the row
is appended (next rowid) and success is reported.  No validation of `year`,
`rating` or `poster_url` is performed. -/
def add_movie (s : List MovieRecord) (title : String) (year : Int)
    (rating : Rat) (poster_url : String) : List MovieRecord × StorageReport :=
  if s.any fun r => r.title == title then (s, StorageReport.duplicateKey title)
  else (s ++ [⟨title, year, rating, poster_url⟩], StorageReport.added title)

/-- `delete_movie` (lines 69-83): `DELETE FROM movies WHERE title = :title`,
then report success when `rowcount > 0` and not-found otherwise. -/
def delete_movie (s : List MovieRecord) (title : String) :
    List MovieRecord × StorageReport :=
  let remaining := s.filter fun r => !(r.title == title)
  if remaining.length < s.length then (remaining, StorageReport.deleted title)
  else (s, StorageReport.notFound title)

/-- `update_movie` (lines 86-103): `UPDATE movies SET rating = :rating WHERE
title = :title`, then report on `rowcount` as in delete. -/
def update_movie (s : List MovieRecord) (title : String) (rating : Rat) :
    List MovieRecord × StorageReport :=
  if s.any fun r => r.title == title then
    (s.map fun r => if r.title == title then { r with rating := rating } else r,
     StorageReport.updated title)
  else (s, StorageReport.notFound title)

/-- The table's `UNIQUE` constraint: titles are pairwise distinct. -/
def UniqueTitles (s : List MovieRecord) : Prop :=
  (s.map MovieRecord.title).Nodup

instance (s : List MovieRecord) : Decidable (UniqueTitles s) :=
  inferInstanceAs (Decidable ((s.map MovieRecord.title).Nodup))

/-! ## Catalog service (`movies.py`) -/

/-- Validation limits (lines 19-23 of `movies.py`). -/
def MIN_YEAR : Int := 1888

def MAX_YEAR : Int := 2026

def MIN_RATING : Rat := 0

def MAX_RATING : Rat := 10

/-- Modelled from the prompt loop `get_valid_rating` (lines 70-79): the
function re-prompts until a numeric input within `[MIN_RATING, MAX_RATING]`
arrives; we model the stream of successively entered numeric values as a
list and return the first in-range one (`none` when the user never supplies
one, in which case the source loops forever). -/
def get_valid_rating (attempts : List Rat) : Option Rat :=
  attempts.find? fun r => decide (MIN_RATING ≤ r ∧ r ≤ MAX_RATING)

/-- Modelled from the prompt loop `get_valid_year` (lines 82-92), as in
`get_valid_rating`. -/
def get_valid_year (attempts : List Int) : Option Int :=
  attempts.find? fun y => decide (MIN_YEAR ≤ y ∧ y ≤ MAX_YEAR)

/-- Result record of `stats_movies` (the three values it prints). -/
structure MovieStats where
  average : Rat
  best : String × MovieInfo
  worst : String × MovieInfo
deriving DecidableEq, Repr

/-- Python `max(items, key=f)`: fold that replaces the current maximum only
on a strictly larger key, so the first maximal item wins ties. -/
def pyMaxFold {α : Type} (f : α → Rat) (x : α) (xs : List α) : α :=
  xs.foldl (fun acc y => if f acc < f y then y else acc) x

/-- Python `min(items, key=f)`: as `pyMaxFold` with the comparison flipped. -/
def pyMinFold {α : Type} (f : α → Rat) (x : α) (xs : List α) : α :=
  xs.foldl (fun acc y => if f y < f acc then y else acc) x

/-- `stats_movies` (lines 157-172): on an empty dict report and stop
(`none`); otherwise the mean of the ratings, `max` by rating and `min` by
rating over the dict items. -/
def stats_movies (movies : List (String × MovieInfo)) : Option MovieStats :=
  match movies with
  | [] => none
  | m :: rest =>
    some { average := ((m :: rest).map fun p => p.2.rating).sum /
             ((m :: rest).length : Rat),
           best := pyMaxFold (fun p => p.2.rating) m rest,
           worst := pyMinFold (fun p => p.2.rating) m rest }

/-- Python `str.lower()`, modelled characterwise. -/
def pyLower (s : String) : String :=
  ⟨s.data.map Char.toLower⟩

/-- Python `str.strip()`: remove leading and trailing whitespace. -/
def pyStrip (s : String) : String :=
  ⟨((s.data.dropWhile Char.isWhitespace).reverse.dropWhile
      Char.isWhitespace).reverse⟩

/-- `search_movie` (lines 188-203): strip and lower-case the query; an empty
query returns immediately with no matches; otherwise keep the dict items
whose lower-cased title contains the query as a substring (Python `in`). -/
def search_movie (query : String) (movies : List (String × MovieInfo)) :
    List (String × MovieInfo) :=
  let q := pyLower (pyStrip query)
  if q = "" then []
  else movies.filter fun p => decide (q.data <:+: (pyLower p.1).data)

/-- Comparison used by `movies_sorted_by_rating`: `sorted(..., key=rating,
reverse=True)` orders `a` before `b` exactly when `b`'s rating is at most
`a`'s. -/
def byRatingDesc (a b : String × MovieInfo) : Prop :=
  b.2.rating ≤ a.2.rating

instance : DecidableRel byRatingDesc :=
  fun a b => inferInstanceAs (Decidable (b.2.rating ≤ a.2.rating))

instance : IsTotal (String × MovieInfo) byRatingDesc :=
  ⟨fun a b => le_total b.2.rating a.2.rating⟩

instance : IsTrans (String × MovieInfo) byRatingDesc :=
  ⟨fun _ _ _ h1 h2 => le_trans h2 h1⟩

/-- `movies_sorted_by_rating` (lines 206-222): Python `sorted` with
`reverse=True` is a stable descending sort by rating.  A stable sort by a
total preorder is a unique function of its input, so the stable
`insertionSort` with `byRatingDesc` computes exactly what timsort does. -/
def movies_sorted_by_rating (movies : List (String × MovieInfo)) :
    List (String × MovieInfo) :=
  List.insertionSort byRatingDesc movies

/-! ## Website generation (`generate_website`, lines 225-273)

The function is modelled as the pure template transformation: reading the
template file and writing `index.html` are I/O around it.  `str.replace` is
modelled by `pyReplace`: scan left to right, replace every non-overlapping
occurrence of the pattern, never rescanning replacement text.  The numeric
renderings of `year` and `rating` are modelled by decimal digit strings;
Python prints ints and floats with digits, a sign, a dot (never an
underscore), which is all the theorems use. -/

/-- A single-quote character as a string (the HTML attribute quote used by
the source's f-strings). -/
def squo : String := ⟨[Char.ofNat 39]⟩

/-- Decimal digits of an integer, as Python `str(int)` prints them. -/
def intChars (i : Int) : List Char :=
  if i < 0 then '-' :: Nat.toDigits 10 i.natAbs else Nat.toDigits 10 i.natAbs

/-- Rendering of the `year` field in the page. -/
def yearStr (i : Int) : String :=
  (intChars i).asString

/-- Modelled rendering of the `rating` float: whole ratings print as
`n.0` like Python; other values are shown as an exact fraction. -/
def ratStr (q : Rat) : String :=
  if q.den = 1 then yearStr q.num ++ ".0"
  else yearStr q.num ++ "/" ++ (Nat.toDigits 10 q.den).asString

/-- The per-movie markup block without the poster image (lines 243-263 with
the `if` at line 245 not taken). -/
def movieBlockNoImg (title : String) (info : MovieInfo) : String :=
  "        <li>\n" ++
  "            <div class=" ++ squo ++ "movie" ++ squo ++ ">\n" ++
  "                <div class=" ++ squo ++ "movie-title" ++ squo ++ ">" ++
    title ++ "</div>\n" ++
  "                <div class=" ++ squo ++ "movie-year" ++ squo ++ ">" ++
    yearStr info.year ++ "</div>\n" ++
  "                <div class=" ++ squo ++ "movie-rating" ++ squo ++
    ">Rating: " ++ ratStr info.rating ++ "</div>\n" ++
  "            </div>\n" ++
  "        </li>\n"

/-- The per-movie markup block (lines 243-263): the `<img>` line is emitted
only when the poster is non-empty and not the `"N/A"` sentinel. -/
def movieBlock (title : String) (info : MovieInfo) : String :=
  "        <li>\n" ++
  "            <div class=" ++ squo ++ "movie" ++ squo ++ ">\n" ++
  (if info.poster_url ≠ "" ∧ info.poster_url ≠ "N/A" then
    "                <img class=" ++ squo ++ "movie-poster" ++ squo ++
      " src=" ++ squo ++ info.poster_url ++ squo ++
      " alt=" ++ squo ++ title ++ squo ++ "/>\n"
   else "") ++
  "                <div class=" ++ squo ++ "movie-title" ++ squo ++ ">" ++
    title ++ "</div>\n" ++
  "                <div class=" ++ squo ++ "movie-year" ++ squo ++ ">" ++
    yearStr info.year ++ "</div>\n" ++
  "                <div class=" ++ squo ++ "movie-rating" ++ squo ++
    ">Rating: " ++ ratStr info.rating ++ "</div>\n" ++
  "            </div>\n" ++
  "        </li>\n"

/-- The `movie_grid` accumulation loop (lines 237-263). -/
def movieGrid (movies : List (String × MovieInfo)) : String :=
  movies.foldl (fun acc p => acc ++ movieBlock p.1 p.2) ""

/-- The title placeholder token of the template. -/
def TITLE_TOKEN : List Char := "__TEMPLATE_TITLE__".toList

/-- The movie-grid placeholder token of the template. -/
def GRID_TOKEN : List Char := "__TEMPLATE_MOVIE_GRID__".toList

/-- Fueled worker for `pyReplace`; the fuel only makes the recursion
structural so that the kernel can evaluate it (`pyReplace` always supplies
enough fuel). -/
def replaceFuel : Nat → List Char → List Char → List Char → List Char
  | 0, s, _, _ => s
  | _ + 1, [], _, _ => []
  | fuel + 1, c :: cs, pat, rep =>
    if pat ≠ [] ∧ pat <+: (c :: cs) then
      rep ++ replaceFuel fuel ((c :: cs).drop pat.length) pat rep
    else c :: replaceFuel fuel cs pat rep

/-- Python `s.replace(pat, rep)`: replace every non-overlapping occurrence
left to right, never rescanning the inserted replacement text. -/
def pyReplace (s pat rep : List Char) : List Char :=
  replaceFuel s.length s pat rep

/-- `generate_website` as the pure document transformation (lines 265-266):
replace the title token by the fixed page title, then the grid token by the
concatenated movie blocks. -/
def generate_website (template : List Char)
    (movies : List (String × MovieInfo)) : List Char :=
  pyReplace (pyReplace template TITLE_TOKEN "My Movie App".toList)
    GRID_TOKEN (movieGrid movies).toList

/-- Number of positions of `s` at which `pat` occurs. -/
def countOccur (s pat : List Char) : Nat :=
  ((List.range (s.length + 1)).filter fun i => decide (pat <+: s.drop i)).length

/-- Boolean occurrence test used by concrete counterexamples. -/
def occursTok (pat s : List Char) : Bool :=
  (List.range (s.length + 1)).any fun i => decide (pat <+: s.drop i)

/-! ## Storage-layer lemmas -/

lemma any_title_eq (s : List MovieRecord) (t : String) :
    ((s.any fun r => r.title == t) = true) ↔ ∃ r ∈ s, r.title = t := by
  simp [List.any_eq_true]

lemma titles_split (pre post : List MovieRecord) (r0 : MovieRecord)
    (h : UniqueTitles (pre ++ r0 :: post)) :
    (∀ x ∈ pre, x.title ≠ r0.title) ∧ ∀ x ∈ post, x.title ≠ r0.title := by
  unfold UniqueTitles at h
  rw [List.map_append, List.nodup_append] at h
  obtain ⟨-, h2, h3⟩ := h
  rw [List.map_cons, List.nodup_cons] at h2
  constructor
  · intro x hx he
    exact h3 (List.mem_map.mpr ⟨x, hx, rfl⟩) (by simp [he])
  · intro x hx he
    exact h2.1 (List.mem_map.mpr ⟨x, hx, he⟩)

lemma filter_title_of_unique (s : List MovieRecord) (r0 : MovieRecord)
    (hs : UniqueTitles s) (hr0 : r0 ∈ s) :
    s.filter (fun r => r.title == r0.title) = [r0] := by
  obtain ⟨pre, post, rfl⟩ := List.append_of_mem hr0
  obtain ⟨h1, h2⟩ := titles_split pre post r0 hs
  rw [List.filter_append, List.filter_cons]
  rw [List.filter_eq_nil_iff.mpr fun x hx => by simp [h1 x hx]]
  rw [List.filter_eq_nil_iff.mpr fun x hx => by simp [h2 x hx]]
  simp

lemma add_movie_fresh (s : List MovieRecord) (t : String) (y : Int) (ρ : Rat)
    (pu : String) (hfresh : ∀ r ∈ s, r.title ≠ t) :
    add_movie s t y ρ pu = (s ++ [⟨t, y, ρ, pu⟩], StorageReport.added t) := by
  have hany : ¬ (s.any fun r => r.title == t) = true := by
    rw [any_title_eq]
    rintro ⟨r, hr, he⟩
    exact hfresh r hr he
  simp [add_movie, hany]

lemma mem_dictInsert (d : List (String × MovieInfo)) (k : String)
    (v : MovieInfo) (q : String × MovieInfo) (hq : q ∈ dictInsert d k v) :
    q ∈ d ∨ q.1 = k := by
  unfold dictInsert at hq
  split at hq
  · obtain ⟨p, hp, he⟩ := List.mem_map.mp hq
    by_cases hpk : (p.1 == k) = true
    · rw [if_pos hpk] at he
      right
      rw [← he]
    · rw [if_neg hpk] at he
      exact Or.inl (he ▸ hp)
  · rw [List.mem_append] at hq
    rcases hq with hq | hq
    · exact Or.inl hq
    · right
      rw [List.mem_singleton] at hq
      rw [hq]

lemma mem_buildDict_aux (rows : List MovieRecord) :
    ∀ (d : List (String × MovieInfo)) (q : String × MovieInfo),
      q ∈ rows.foldl (fun d r => dictInsert d r.title r.info) d →
      q ∈ d ∨ q.1 ∈ rows.map MovieRecord.title := by
  induction rows with
  | nil => exact fun d q h => Or.inl h
  | cons r rows ih =>
    intro d q h
    rcases ih (dictInsert d r.title r.info) q h with h' | h'
    · rcases mem_dictInsert _ _ _ _ h' with h'' | h''
      · exact Or.inl h''
      · right
        simp [h'']
    · right
      simp [h']

lemma buildDict_fresh_none (rows : List MovieRecord) (t : String)
    (h : ∀ r ∈ rows, r.title ≠ t) :
    (buildDict rows).find? (fun p => p.1 == t) = none := by
  rw [List.find?_eq_none]
  intro q hq
  rcases mem_buildDict_aux rows [] q hq with h' | h'
  · simp at h'
  · obtain ⟨r, hr, he⟩ := List.mem_map.mp h'
    simp only [beq_iff_eq]
    intro hqt
    exact h r hr (he.trans hqt)

lemma dictInsert_fresh (d : List (String × MovieInfo)) (k : String)
    (v : MovieInfo) (h : d.find? (fun p => p.1 == k) = none) :
    dictInsert d k v = d ++ [(k, v)] := by
  unfold dictInsert
  rw [if_neg]
  intro hany
  rw [List.any_eq_true] at hany
  obtain ⟨p, hp, hpk⟩ := hany
  exact List.find?_eq_none.mp h p hp hpk

/-! ## Claims C1-C4, C9, C10: the storage contract -/

/-- C1: adding a title that is already present reports `DuplicateKey`
(nothing is raised: `add_movie` is total and returns the report), the table
is unchanged, and afterwards exactly one record carries that title — the one
of the first insert. -/
theorem add_movie_duplicate (s : List MovieRecord) (t : String) (y : Int)
    (ρ : Rat) (pu : String) (r0 : MovieRecord)
    (hs : UniqueTitles s) (hr0 : r0 ∈ s) (ht : r0.title = t) :
    add_movie s t y ρ pu = (s, StorageReport.duplicateKey t) ∧
    (add_movie s t y ρ pu).1.filter (fun r => r.title == t) = [r0] := by
  have hany : (s.any fun r => r.title == t) = true :=
    (any_title_eq s t).mpr ⟨r0, hr0, ht⟩
  have h1 : add_movie s t y ρ pu = (s, StorageReport.duplicateKey t) := by
    simp [add_movie, hany]
  refine ⟨h1, ?_⟩
  rw [h1]
  subst ht
  exact filter_title_of_unique s r0 hs hr0

/-- Witness for C1 at a concrete one-record store. -/
theorem add_movie_duplicate_witness :
    UniqueTitles [⟨"Dune", 2021, 8, "u"⟩] ∧
    (⟨"Dune", 2021, 8, "u"⟩ : MovieRecord) ∈ [(⟨"Dune", 2021, 8, "u"⟩ : MovieRecord)] ∧
    (add_movie [⟨"Dune", 2021, 8, "u"⟩] "Dune" 1984 7 "v" =
        ([⟨"Dune", 2021, 8, "u"⟩], StorageReport.duplicateKey "Dune") ∧
      (add_movie [⟨"Dune", 2021, 8, "u"⟩] "Dune" 1984 7 "v").1.filter
          (fun r => r.title == "Dune") = [⟨"Dune", 2021, 8, "u"⟩]) :=
  ⟨by decide, by decide,
    add_movie_duplicate [⟨"Dune", 2021, 8, "u"⟩] "Dune" 1984 7 "v"
      ⟨"Dune", 2021, 8, "u"⟩ (by decide) (by decide) rfl⟩

/-- C2: adding a fresh title reports success, and listing afterwards
succeeds with no diagnostics and maps that title to exactly the inserted
year, rating and poster URL. -/
theorem add_then_list_roundtrip (s : List MovieRecord) (t : String) (y : Int)
    (ρ : Rat) (pu : String) (hfresh : ∀ r ∈ s, r.title ≠ t) :
    (add_movie s t y ρ pu).2 = StorageReport.added t ∧
    list_movies (DBState.ok (add_movie s t y ρ pu).1) =
      Except.ok (buildDict (add_movie s t y ρ pu).1, []) ∧
    dictLookup (buildDict (add_movie s t y ρ pu).1) t =
      some ⟨y, ρ, pu⟩ := by
  rw [add_movie_fresh s t y ρ pu hfresh]
  refine ⟨rfl, rfl, ?_⟩
  show dictLookup (buildDict (s ++ [⟨t, y, ρ, pu⟩])) t = some ⟨y, ρ, pu⟩
  have hsplit : buildDict (s ++ [⟨t, y, ρ, pu⟩]) =
      dictInsert (buildDict s) t ⟨y, ρ, pu⟩ := by
    simp [buildDict, List.foldl_append, MovieRecord.info]
  have hnone := buildDict_fresh_none s t hfresh
  rw [hsplit, dictInsert_fresh _ _ _ hnone]
  unfold dictLookup
  rw [List.find?_append, hnone]
  simp [List.find?]

/-- Witness for C2: insert into a store that already holds another title. -/
theorem add_then_list_roundtrip_witness :
    (∀ r ∈ [(⟨"Dune", 2021, 8, "u"⟩ : MovieRecord)], r.title ≠ "Heat") ∧
    ((add_movie [⟨"Dune", 2021, 8, "u"⟩] "Heat" 1995 9 "h").2 =
        StorageReport.added "Heat" ∧
      list_movies
          (DBState.ok (add_movie [⟨"Dune", 2021, 8, "u"⟩] "Heat" 1995 9 "h").1) =
        Except.ok
          (buildDict (add_movie [⟨"Dune", 2021, 8, "u"⟩] "Heat" 1995 9 "h").1,
            []) ∧
      dictLookup
          (buildDict (add_movie [⟨"Dune", 2021, 8, "u"⟩] "Heat" 1995 9 "h").1)
          "Heat" = some ⟨1995, 9, "h"⟩) :=
  ⟨by decide,
    add_then_list_roundtrip [⟨"Dune", 2021, 8, "u"⟩] "Heat" 1995 9 "h" (by decide)⟩

/-- C3: deleting an existing title removes exactly that record and reports
success; deleting an absent title reports not-found and changes nothing. -/
theorem delete_movie_spec :
    (∀ (s : List MovieRecord) (t : String) (r0 : MovieRecord)
        (pre post : List MovieRecord), UniqueTitles s → r0.title = t →
        s = pre ++ r0 :: post →
        delete_movie s t = (pre ++ post, StorageReport.deleted t)) ∧
    ∀ (s : List MovieRecord) (t : String), (∀ r ∈ s, r.title ≠ t) →
      delete_movie s t = (s, StorageReport.notFound t) := by
  constructor
  · rintro s t r0 pre post hu ht rfl
    subst ht
    obtain ⟨h1, h2⟩ := titles_split pre post r0 hu
    have hfil : ((pre ++ r0 :: post).filter fun r => !(r.title == r0.title)) =
        pre ++ post := by
      rw [List.filter_append, List.filter_cons]
      rw [List.filter_eq_self.mpr fun x hx => by simp [h1 x hx]]
      rw [List.filter_eq_self.mpr fun x hx => by simp [h2 x hx]]
      simp
    have hlen : (pre ++ post).length < (pre ++ r0 :: post).length := by
      simp
    simp only [delete_movie, hfil]
    rw [if_pos hlen]
  · intro s t h
    have hfil : (s.filter fun r => !(r.title == t)) = s :=
      List.filter_eq_self.mpr fun r hr => by simp [h r hr]
    simp only [delete_movie, hfil]
    rw [if_neg (lt_irrefl s.length)]

/-- Witness for C3: both branches at a concrete two-record store. -/
theorem delete_movie_spec_witness :
    (UniqueTitles [⟨"A", 2000, 7, ""⟩, ⟨"B", 2001, 6, ""⟩] ∧
      delete_movie [⟨"A", 2000, 7, ""⟩, ⟨"B", 2001, 6, ""⟩] "B" =
        ([⟨"A", 2000, 7, ""⟩], StorageReport.deleted "B")) ∧
    ((∀ r ∈ [(⟨"A", 2000, 7, ""⟩ : MovieRecord)], r.title ≠ "Z") ∧
      delete_movie [⟨"A", 2000, 7, ""⟩] "Z" =
        ([⟨"A", 2000, 7, ""⟩], StorageReport.notFound "Z")) :=
  ⟨⟨by decide,
      delete_movie_spec.1 [⟨"A", 2000, 7, ""⟩, ⟨"B", 2001, 6, ""⟩] "B"
        ⟨"B", 2001, 6, ""⟩ [⟨"A", 2000, 7, ""⟩] [] (by decide) rfl rfl⟩,
    ⟨by decide, delete_movie_spec.2 [⟨"A", 2000, 7, ""⟩] "Z" (by decide)⟩⟩

/-- C4: updating the rating of an existing title rewrites only that record's
rating field, keeping its other fields and every other record; updating an
absent title reports not-found and changes nothing. -/
theorem update_movie_spec :
    (∀ (s : List MovieRecord) (t : String) (ρ : Rat) (r0 : MovieRecord)
        (pre post : List MovieRecord), UniqueTitles s → r0.title = t →
        s = pre ++ r0 :: post →
        update_movie s t ρ =
          (pre ++ { r0 with rating := ρ } :: post, StorageReport.updated t)) ∧
    ∀ (s : List MovieRecord) (t : String) (ρ : Rat),
      (∀ r ∈ s, r.title ≠ t) →
      update_movie s t ρ = (s, StorageReport.notFound t) := by
  constructor
  · rintro s t ρ r0 pre post hu ht rfl
    subst ht
    obtain ⟨h1, h2⟩ := titles_split pre post r0 hu
    have hany : ((pre ++ r0 :: post).any fun r => r.title == r0.title) = true :=
      (any_title_eq _ _).mpr ⟨r0, by simp, rfl⟩
    unfold update_movie
    rw [if_pos hany]
    congr 1
    rw [List.map_append, List.map_cons]
    have hpre : (pre.map fun r =>
        if r.title == r0.title then { r with rating := ρ } else r) = pre := by
      conv_rhs => rw [← List.map_id pre]
      exact List.map_congr_left fun x hx => by simp [h1 x hx]
    have hpost : (post.map fun r =>
        if r.title == r0.title then { r with rating := ρ } else r) = post := by
      conv_rhs => rw [← List.map_id post]
      exact List.map_congr_left fun x hx => by simp [h2 x hx]
    rw [hpre, hpost]
    simp
  · intro s t ρ h
    have hany : ¬ (s.any fun r => r.title == t) = true := by
      rw [any_title_eq]
      rintro ⟨r, hr, he⟩
      exact h r hr he
    unfold update_movie
    rw [if_neg hany]

/-- Witness for C4: both branches at a concrete two-record store. -/
theorem update_movie_spec_witness :
    (UniqueTitles [⟨"A", 2000, 7, "pa"⟩, ⟨"B", 2001, 6, "pb"⟩] ∧
      update_movie [⟨"A", 2000, 7, "pa"⟩, ⟨"B", 2001, 6, "pb"⟩] "B" 9 =
        ([⟨"A", 2000, 7, "pa"⟩, ⟨"B", 2001, 9, "pb"⟩],
          StorageReport.updated "B")) ∧
    ((∀ r ∈ [(⟨"A", 2000, 7, "pa"⟩ : MovieRecord)], r.title ≠ "Z") ∧
      update_movie [⟨"A", 2000, 7, "pa"⟩] "Z" 1 =
        ([⟨"A", 2000, 7, "pa"⟩], StorageReport.notFound "Z")) :=
  ⟨⟨by decide,
      update_movie_spec.1 [⟨"A", 2000, 7, "pa"⟩, ⟨"B", 2001, 6, "pb"⟩] "B" 9
        ⟨"B", 2001, 6, "pb"⟩ [⟨"A", 2000, 7, "pa"⟩] [] (by decide) rfl rfl⟩,
    ⟨by decide, update_movie_spec.2 [⟨"A", 2000, 7, "pa"⟩] "Z" 1 (by decide)⟩⟩

/-- C9 (amended): only failures surfacing as `OperationalError` (store
unreachable, missing table) are caught — for those `list_movies` prints the
diagnostic and returns the empty mapping without raising; a failure of any
other kind, such as the `DatabaseError` a corrupt store file raises
(SQLITE_CORRUPT / SQLITE_NOTADB), matches no except clause and propagates
to the caller. -/
theorem list_movies_degrades :
    (∀ e : String,
        list_movies (DBState.failing (DBError.operational e)) =
          Except.ok ([], ["Database error: " ++ e])) ∧
    ∀ e : String,
      list_movies (DBState.failing (DBError.databaseError e)) =
        Except.error (DBError.databaseError e) :=
  ⟨fun _ => rfl, fun _ => rfl⟩

/-- Counterexample to C9 as frozen: a corrupt store raises a non-operational
`DatabaseError`, which `list_movies` does not catch — the call propagates
the exception instead of degrading to the empty mapping. -/
theorem list_movies_corrupt_raises :
    list_movies
        (DBState.failing
          (DBError.databaseError "database disk image is malformed")) =
      Except.error (DBError.databaseError "database disk image is malformed") ∧
    list_movies
        (DBState.failing
          (DBError.databaseError "database disk image is malformed")) ≠
      Except.ok ([], ["Database error: database disk image is malformed"]) :=
  ⟨rfl, fun h => Except.noConfusion h⟩

/-- C10: the storage layer validates no ranges — any year and rating are
inserted unchanged for a fresh title — while the manual-entry prompts accept
only in-range values. -/
theorem add_movie_no_validation :
    (∀ (s : List MovieRecord) (t : String) (y : Int) (ρ : Rat) (pu : String),
        (∀ r ∈ s, r.title ≠ t) →
        add_movie s t y ρ pu = (s ++ [⟨t, y, ρ, pu⟩], StorageReport.added t)) ∧
    (∀ (attempts : List Rat) (ρ : Rat), get_valid_rating attempts = some ρ →
        MIN_RATING ≤ ρ ∧ ρ ≤ MAX_RATING) ∧
    ∀ (attempts : List Int) (y : Int), get_valid_year attempts = some y →
      MIN_YEAR ≤ y ∧ y ≤ MAX_YEAR := by
  refine ⟨add_movie_fresh, ?_, ?_⟩
  · intro attempts ρ h
    have := List.find?_some h
    rwa [decide_eq_true_eq] at this
  · intro attempts y h
    have := List.find?_some h
    rwa [decide_eq_true_eq] at this

/-- Witness for C10: a year of 3000 and a rating of -5 are inserted as-is,
while the prompts skip out-of-range attempts. -/
theorem add_movie_no_validation_witness :
    ((∀ r ∈ ([] : List MovieRecord), r.title ≠ "Nosferatu") ∧
      add_movie [] "Nosferatu" 3000 (-5) "" =
        ([⟨"Nosferatu", 3000, -5, ""⟩], StorageReport.added "Nosferatu")) ∧
    (get_valid_rating [-5, 11, 7] = some 7 ∧
      (MIN_RATING ≤ (7 : Rat) ∧ (7 : Rat) ≤ MAX_RATING)) ∧
    (get_valid_year [3000, 1999] = some 1999 ∧
      (MIN_YEAR ≤ (1999 : Int) ∧ (1999 : Int) ≤ MAX_YEAR)) :=
  ⟨⟨by decide, add_movie_no_validation.1 [] "Nosferatu" 3000 (-5) "" (by decide)⟩,
    ⟨by decide, add_movie_no_validation.2.1 [-5, 11, 7] 7 (by decide)⟩,
    ⟨by decide, add_movie_no_validation.2.2 [3000, 1999] 1999 (by decide)⟩⟩

/-! ## Catalog lemmas: Python max/min folds and stable sorting -/

lemma pyMaxFold_spec {α : Type} (f : α → Rat) (x : α) (xs : List α) :
    pyMaxFold f x xs ∈ x :: xs ∧
    (∀ y ∈ x :: xs, f y ≤ f (pyMaxFold f x xs)) ∧
    (x :: xs).find? (fun y => decide (f y = f (pyMaxFold f x xs))) =
      some (pyMaxFold f x xs) := by
  induction xs generalizing x with
  | nil =>
    refine ⟨List.mem_singleton.mpr rfl, ?_, by simp [pyMaxFold]⟩
    intro y hy
    rw [List.mem_singleton] at hy
    rw [hy]
    exact le_refl (f x)
  | cons y ys ih =>
    have hstep : pyMaxFold f x (y :: ys) =
        pyMaxFold f (if f x < f y then y else x) ys := rfl
    by_cases hxy : f x < f y
    · rw [hstep, if_pos hxy]
      obtain ⟨hm, hb, hf⟩ := ih y
      refine ⟨List.mem_cons_of_mem x hm, ?_, ?_⟩
      · intro z hz
        rcases List.mem_cons.mp hz with rfl | hz
        · exact le_of_lt (lt_of_lt_of_le hxy (hb y (List.mem_cons_self y ys)))
        · exact hb z hz
      · rw [List.find?_cons_of_neg, hf]
        simp only [decide_eq_true_eq]
        exact ne_of_lt (lt_of_lt_of_le hxy (hb y (List.mem_cons_self y ys)))
    · rw [hstep, if_neg hxy]
      obtain ⟨hm, hb, hf⟩ := ih x
      have hyx : f y ≤ f x := le_of_not_lt hxy
      have hxm : f x ≤ f (pyMaxFold f x ys) := hb x (List.mem_cons_self x ys)
      refine ⟨?_, ?_, ?_⟩
      · rcases List.mem_cons.mp hm with he | hm
        · rw [he]
          exact List.mem_cons_self _ _
        · exact List.mem_cons_of_mem x (List.mem_cons_of_mem y hm)
      · intro z hz
        rcases List.mem_cons.mp hz with rfl | hz
        · exact hxm
        rcases List.mem_cons.mp hz with rfl | hz
        · exact le_trans hyx hxm
        · exact hb z (List.mem_cons_of_mem x hz)
      · by_cases hfx : f x = f (pyMaxFold f x ys)
        · have hfind : (x :: ys).find?
              (fun z => decide (f z = f (pyMaxFold f x ys))) = some x :=
            List.find?_cons_of_pos ys (by simpa using hfx)
          have hx_eq : x = pyMaxFold f x ys := by
            have := hf.symm.trans hfind
            exact (Option.some_inj.mp this).symm
          rw [List.find?_cons_of_pos _ (by simpa using hfx), ← hx_eq]
        · have hlt : f x < f (pyMaxFold f x ys) := lt_of_le_of_ne hxm hfx
          have hstep2 : ((x :: ys).find?
              fun z => decide (f z = f (pyMaxFold f x ys))) =
              ys.find? fun z => decide (f z = f (pyMaxFold f x ys)) := by
            rw [List.find?_cons_of_neg _ (by simpa using hfx)]
          rw [List.find?_cons_of_neg _ (by simpa using hfx),
            List.find?_cons_of_neg, ← hstep2, hf]
          simp only [decide_eq_true_eq]
          exact ne_of_lt (lt_of_le_of_lt hyx hlt)

lemma pyMinFold_eq_max_neg {α : Type} (f : α → Rat) (x : α) (xs : List α) :
    pyMinFold f x xs = pyMaxFold (fun a => -(f a)) x xs := by
  induction xs generalizing x with
  | nil => rfl
  | cons y ys ih =>
    have h1 : pyMinFold f x (y :: ys) =
        pyMinFold f (if f y < f x then y else x) ys := rfl
    have h2 : pyMaxFold (fun a => -(f a)) x (y :: ys) =
        pyMaxFold (fun a => -(f a)) (if -(f x) < -(f y) then y else x) ys := rfl
    rw [h1, h2, ih]
    by_cases h : f y < f x
    · rw [if_pos h, if_pos (neg_lt_neg_iff.mpr h)]
    · rw [if_neg h, if_neg fun hc => h (neg_lt_neg_iff.mp hc)]

lemma pyMinFold_spec {α : Type} (f : α → Rat) (x : α) (xs : List α) :
    pyMinFold f x xs ∈ x :: xs ∧
    (∀ y ∈ x :: xs, f (pyMinFold f x xs) ≤ f y) ∧
    (x :: xs).find? (fun y => decide (f y = f (pyMinFold f x xs))) =
      some (pyMinFold f x xs) := by
  rw [pyMinFold_eq_max_neg]
  obtain ⟨hm, hb, hf⟩ := pyMaxFold_spec (fun a => -(f a)) x xs
  refine ⟨hm, ?_, ?_⟩
  · intro y hy
    have := hb y hy
    simpa using this
  · have hpred : (fun y => decide (-(f y) = -(f (pyMaxFold (fun a => -(f a)) x xs)))) =
        fun y => decide (f y = f (pyMaxFold (fun a => -(f a)) x xs)) :=
      funext fun y => decide_eq_decide.mpr neg_inj
    rw [← hpred]
    exact hf

/-- C5: on a non-empty dict, `stats_movies` returns the arithmetic mean of
the ratings, a record of maximal rating as best and one of minimal rating as
worst, ties resolved in favour of the first record in iteration order (the
`find?` clauses); on the spec's three-record example it returns 19/3, B and
C; on the empty dict it returns nothing (so no division happens). -/
theorem stats_movies_spec :
    (∀ movies : List (String × MovieInfo), movies ≠ [] →
        ∃ st : MovieStats, stats_movies movies = some st ∧
          st.average = (movies.map fun p => p.2.rating).sum /
            (movies.length : Rat) ∧
          st.best ∈ movies ∧
          (∀ y ∈ movies, y.2.rating ≤ st.best.2.rating) ∧
          movies.find? (fun y => decide (y.2.rating = st.best.2.rating)) =
            some st.best ∧
          st.worst ∈ movies ∧
          (∀ y ∈ movies, st.worst.2.rating ≤ y.2.rating) ∧
          movies.find? (fun y => decide (y.2.rating = st.worst.2.rating)) =
            some st.worst) ∧
    stats_movies [] = none ∧
    stats_movies
        [("A", ⟨2001, 7, ""⟩), ("B", ⟨2002, 9, ""⟩), ("C", ⟨2003, 3, ""⟩)] =
      some ⟨19/3, ("B", ⟨2002, 9, ""⟩), ("C", ⟨2003, 3, ""⟩)⟩ := by
  refine ⟨?_, rfl, ?_⟩
  · intro movies hne
    obtain ⟨m, rest, rfl⟩ := List.exists_cons_of_ne_nil hne
    obtain ⟨hbm, hbb, hbf⟩ := pyMaxFold_spec (fun p => p.2.rating) m rest
    obtain ⟨hwm, hwb, hwf⟩ := pyMinFold_spec (fun p => p.2.rating) m rest
    exact ⟨_, rfl, rfl, hbm, hbb, hbf, hwm, hwb, hwf⟩
  · simp only [stats_movies, pyMaxFold, pyMinFold, List.foldl, List.map,
      List.sum_cons, List.sum_nil, List.length_cons, List.length_nil]
    norm_num

/-- Witness for C5 at a concrete singleton dict. -/
theorem stats_movies_spec_witness :
    ([("A", (⟨2001, 7, ""⟩ : MovieInfo))] ≠ []) ∧
    (∃ st : MovieStats,
      stats_movies [("A", ⟨2001, 7, ""⟩)] = some st ∧
      st.average = (([("A", (⟨2001, 7, ""⟩ : MovieInfo))].map
          fun p => p.2.rating).sum) /
        (([("A", (⟨2001, 7, ""⟩ : MovieInfo))].length : Rat)) ∧
      st.best ∈ [("A", (⟨2001, 7, ""⟩ : MovieInfo))] ∧
      (∀ y ∈ [("A", (⟨2001, 7, ""⟩ : MovieInfo))],
        y.2.rating ≤ st.best.2.rating) ∧
      [("A", (⟨2001, 7, ""⟩ : MovieInfo))].find?
          (fun y => decide (y.2.rating = st.best.2.rating)) = some st.best ∧
      st.worst ∈ [("A", (⟨2001, 7, ""⟩ : MovieInfo))] ∧
      (∀ y ∈ [("A", (⟨2001, 7, ""⟩ : MovieInfo))],
        st.worst.2.rating ≤ y.2.rating) ∧
      [("A", (⟨2001, 7, ""⟩ : MovieInfo))].find?
          (fun y => decide (y.2.rating = st.worst.2.rating)) = some st.worst) :=
  ⟨by decide, stats_movies_spec.1 [("A", ⟨2001, 7, ""⟩)] (by decide)⟩

lemma filter_orderedInsert_eq (a : String × MovieInfo)
    (l : List (String × MovieInfo)) (q : Rat) (ha : a.2.rating = q) :
    (List.orderedInsert byRatingDesc a l).filter
        (fun x => decide (x.2.rating = q)) =
      a :: l.filter (fun x => decide (x.2.rating = q)) := by
  induction l with
  | nil => simp [List.orderedInsert, ha]
  | cons b l ih =>
    rw [List.orderedInsert]
    by_cases hab : byRatingDesc a b
    · rw [if_pos hab, List.filter_cons, if_pos (by simp [ha])]
    · have hbq : ¬ b.2.rating = q := by
        intro h
        exact hab (le_of_eq (h.trans ha.symm))
      rw [if_neg hab, List.filter_cons, if_neg (by simp [hbq]), ih,
        List.filter_cons, if_neg (by simp [hbq])]

lemma filter_orderedInsert_ne (a : String × MovieInfo)
    (l : List (String × MovieInfo)) (q : Rat) (ha : ¬ a.2.rating = q) :
    (List.orderedInsert byRatingDesc a l).filter
        (fun x => decide (x.2.rating = q)) =
      l.filter (fun x => decide (x.2.rating = q)) := by
  induction l with
  | nil => simp [List.orderedInsert, ha]
  | cons b l ih =>
    rw [List.orderedInsert]
    by_cases hab : byRatingDesc a b
    · rw [if_pos hab, List.filter_cons, if_neg (by simp [ha])]
    · rw [if_neg hab, List.filter_cons, ih, List.filter_cons]

lemma filter_insertionSort_rating (q : Rat) (l : List (String × MovieInfo)) :
    (List.insertionSort byRatingDesc l).filter
        (fun x => decide (x.2.rating = q)) =
      l.filter (fun x => decide (x.2.rating = q)) := by
  induction l with
  | nil => rfl
  | cons a l ih =>
    rw [List.insertionSort]
    by_cases ha : a.2.rating = q
    · rw [filter_orderedInsert_eq a _ q ha, ih, List.filter_cons,
        if_pos (by simp [ha])]
    · rw [filter_orderedInsert_ne a _ q ha, ih, List.filter_cons,
        if_neg (by simp [ha])]

/-- C6: the sorted view is ordered by non-increasing rating, is a
permutation of the dict, is stable (for every rating value the records
carrying it keep their dict order), on the spec's example equals [B, A, C],
and as a pure function returns identical output on identical input. -/
theorem movies_sorted_by_rating_spec :
    (∀ movies : List (String × MovieInfo),
        (movies_sorted_by_rating movies).Pairwise byRatingDesc ∧
        (movies_sorted_by_rating movies).Perm movies ∧
        ∀ q : Rat,
          (movies_sorted_by_rating movies).filter
              (fun x => decide (x.2.rating = q)) =
            movies.filter (fun x => decide (x.2.rating = q))) ∧
    movies_sorted_by_rating
        [("A", ⟨2001, 7, ""⟩), ("B", ⟨2002, 9, ""⟩), ("C", ⟨2003, 3, ""⟩)] =
      [("B", ⟨2002, 9, ""⟩), ("A", ⟨2001, 7, ""⟩), ("C", ⟨2003, 3, ""⟩)] ∧
    ∀ movies : List (String × MovieInfo),
      movies_sorted_by_rating movies = movies_sorted_by_rating movies := by
  refine ⟨fun movies => ⟨List.sorted_insertionSort byRatingDesc movies,
    List.perm_insertionSort byRatingDesc movies,
    fun q => filter_insertionSort_rating q movies⟩, ?_, fun _ => rfl⟩
  decide

/-- C7: a non-empty (after stripping and lower-casing) query returns exactly
the records whose lower-cased title contains it as a substring; the empty
query returns no results; on the spec's example "at" matches Catwoman and
Batman and excludes Dune. -/
theorem search_movie_spec :
    (∀ (query : String) (movies : List (String × MovieInfo))
        (x : String × MovieInfo), pyLower (pyStrip query) ≠ "" →
        (x ∈ search_movie query movies ↔
          x ∈ movies ∧ (pyLower (pyStrip query)).data <:+: (pyLower x.1).data)) ∧
    (∀ movies : List (String × MovieInfo), search_movie "" movies = []) ∧
    search_movie "at"
        [("Catwoman", ⟨2004, 4, ""⟩), ("Batman", ⟨1989, 8, ""⟩),
          ("Dune", ⟨2021, 8, ""⟩)] =
      [("Catwoman", ⟨2004, 4, ""⟩), ("Batman", ⟨1989, 8, ""⟩)] := by
  refine ⟨?_, fun movies => rfl, by decide⟩
  intro query movies x hq
  unfold search_movie
  rw [if_neg hq, List.mem_filter, decide_eq_true_eq]

/-- Witness for C7: the query "at" is non-empty and Batman matches. -/
theorem search_movie_spec_witness :
    pyLower (pyStrip "at") ≠ "" ∧
    ((("Batman", (⟨1989, 8, ""⟩ : MovieInfo)) ∈
        search_movie "at"
          [("Catwoman", ⟨2004, 4, ""⟩), ("Batman", ⟨1989, 8, ""⟩),
            ("Dune", ⟨2021, 8, ""⟩)]) ↔
      (("Batman", (⟨1989, 8, ""⟩ : MovieInfo)) ∈
          [("Catwoman", (⟨2004, 4, ""⟩ : MovieInfo)),
            ("Batman", ⟨1989, 8, ""⟩), ("Dune", ⟨2021, 8, ""⟩)] ∧
        (pyLower (pyStrip "at")).data <:+: (pyLower "Batman").data)) :=
  ⟨by decide,
    search_movie_spec.1 "at"
      [("Catwoman", ⟨2004, 4, ""⟩), ("Batman", ⟨1989, 8, ""⟩),
        ("Dune", ⟨2021, 8, ""⟩)] ("Batman", ⟨1989, 8, ""⟩) (by decide)⟩

/-! ## Replacement lemmas for `generate_website` -/

lemma replaceFuel_congr (pat rep : List Char) :
    ∀ (n m : Nat) (s : List Char), s.length ≤ n → s.length ≤ m →
      replaceFuel n s pat rep = replaceFuel m s pat rep := by
  intro n
  induction n with
  | zero =>
    intro m s hn _
    have hs : s = [] := List.eq_nil_of_length_eq_zero (Nat.le_zero.mp hn)
    subst hs
    cases m <;> rfl
  | succ n ih =>
    intro m s hn hm
    cases s with
    | nil => cases m <;> rfl
    | cons c cs =>
      cases m with
      | zero => simp at hm
      | succ m =>
        have hn' : cs.length ≤ n := by
          simp only [List.length_cons] at hn
          omega
        have hm' : cs.length ≤ m := by
          simp only [List.length_cons] at hm
          omega
        show replaceFuel (n + 1) (c :: cs) pat rep =
          replaceFuel (m + 1) (c :: cs) pat rep
        simp only [replaceFuel]
        by_cases h : pat ≠ [] ∧ pat <+: (c :: cs)
        · rw [if_pos h, if_pos h]
          have hp : 1 ≤ pat.length := by
            cases pat with
            | nil => exact absurd rfl h.1
            | cons p pt => simp
          have hd : ((c :: cs).drop pat.length).length ≤ cs.length := by
            rw [List.length_drop]
            simp only [List.length_cons]
            omega
          rw [ih m ((c :: cs).drop pat.length) (le_trans hd hn')
            (le_trans hd hm')]
        · rw [if_neg h, if_neg h, ih m cs hn' hm']

lemma pyReplace_cons (c : Char) (cs pat rep : List Char) :
    pyReplace (c :: cs) pat rep =
      if pat ≠ [] ∧ pat <+: (c :: cs) then
        rep ++ pyReplace ((c :: cs).drop pat.length) pat rep
      else c :: pyReplace cs pat rep := by
  show replaceFuel (cs.length + 1) (c :: cs) pat rep = _
  simp only [replaceFuel]
  by_cases h : pat ≠ [] ∧ pat <+: (c :: cs)
  · rw [if_pos h, if_pos h]
    have hp : 1 ≤ pat.length := by
      cases pat with
      | nil => exact absurd rfl h.1
      | cons p pt => simp
    have hd : ((c :: cs).drop pat.length).length ≤ cs.length := by
      rw [List.length_drop]
      simp only [List.length_cons]
      omega
    rw [replaceFuel_congr pat rep cs.length ((c :: cs).drop pat.length).length
      ((c :: cs).drop pat.length) hd (le_refl _)]
    rfl
  · rw [if_neg h, if_neg h]
    rfl

lemma pyReplace_skip_clean (p0 : Char) (pt rep : List Char) :
    ∀ (a s : List Char), (∀ ch ∈ a, ch ≠ p0) →
      pyReplace (a ++ s) (p0 :: pt) rep = a ++ pyReplace s (p0 :: pt) rep := by
  intro a
  induction a with
  | nil => intro s _; rfl
  | cons c a ih =>
    intro s ha
    rw [List.cons_append, pyReplace_cons, if_neg]
    · rw [ih s fun ch hch => ha ch (List.mem_cons_of_mem c hch)]
      rfl
    · rintro ⟨-, hp⟩
      obtain ⟨t, ht⟩ := hp
      rw [List.cons_append] at ht
      injection ht with h1 h2
      exact ha c (List.mem_cons_self c a) h1.symm

lemma pyReplace_consume (pat : List Char) (hpat : pat ≠ [])
    (s rep : List Char) :
    pyReplace (pat ++ s) pat rep = rep ++ pyReplace s pat rep := by
  cases pat with
  | nil => exact absurd rfl hpat
  | cons p pt =>
    rw [List.cons_append, pyReplace_cons,
      if_pos ⟨hpat, ⟨s, by rw [List.cons_append]⟩⟩]
    have hd : (p :: (pt ++ s)).drop (p :: pt).length = s := by
      rw [← List.cons_append, List.drop_left]
    rw [hd]

lemma pyReplace_noOccur (pat rep : List Char) :
    ∀ s : List Char, (∀ i, ¬ pat <+: s.drop i) → pyReplace s pat rep = s := by
  intro s
  induction s with
  | nil => intro _; rfl
  | cons c cs ih =>
    intro h
    rw [pyReplace_cons, if_neg, ih fun i => by simpa using h (i + 1)]
    rintro ⟨-, hp⟩
    exact h 0 (by simpa using hp)

lemma noOccur_of_clean (p0 : Char) (pt s : List Char) (hs : p0 ∉ s) :
    ∀ i, ¬ (p0 :: pt) <+: s.drop i := by
  intro i hp
  obtain ⟨t, ht⟩ := hp
  have hmem : p0 ∈ s.drop i := by
    rw [← ht]
    simp
  exact hs (List.mem_of_mem_drop hmem)

lemma patEnd_through_clean (pre : List Char) (p0 : Char) (x c : List Char)
    (hc : p0 ∉ c) (hp : (pre ++ [p0]) <+: x ++ c) : (pre ++ [p0]) <+: x := by
  obtain ⟨t, ht⟩ := hp
  by_cases hlen : (pre ++ [p0]).length ≤ x.length
  · have htake : x.take (pre ++ [p0]).length = pre ++ [p0] := by
      have h1 : (x ++ c).take (pre ++ [p0]).length =
          x.take (pre ++ [p0]).length := List.take_append_of_le_length hlen
      rw [← ht, List.take_left] at h1
      exact h1.symm
    refine ⟨x.drop (pre ++ [p0]).length, ?_⟩
    have h4 := List.take_append_drop (pre ++ [p0]).length x
    rw [htake] at h4
    exact h4
  · exfalso
    push_neg at hlen
    have hxle : x.length ≤ (pre ++ [p0]).length := le_of_lt hlen
    have hdrop : (pre ++ [p0]).drop x.length ++ t = c := by
      have h2 := congrArg (List.drop x.length) ht
      rw [List.drop_append_of_le_length hxle, List.drop_left] at h2
      exact h2
    have hx : x.length ≤ pre.length := by
      have h3 : (pre ++ [p0]).length = pre.length + 1 := by simp
      omega
    have hp0 : p0 ∈ (pre ++ [p0]).drop x.length := by
      rw [List.drop_append_of_le_length hx]
      simp
    apply hc
    rw [← hdrop]
    exact List.mem_append_left t hp0

lemma drop_append_past {α : Type} (l₁ l₂ : List α) (i : Nat)
    (h : l₁.length ≤ i) : (l₁ ++ l₂).drop i = l₂.drop (i - l₁.length) := by
  induction l₁ generalizing i with
  | nil => simp
  | cons x l ih =>
    cases i with
    | zero => simp at h
    | succ i =>
      have := ih i (by simpa using h)
      simpa using this

/-! ## No underscore appears in rendered movie blocks -/

lemma digitChar_ne_und : ∀ m : Nat, m < 10 → Nat.digitChar m ≠ '_' := by
  decide

lemma toDigitsCore_clean :
    ∀ (fuel n : Nat) (ds : List Char), (∀ ch ∈ ds, ch ≠ '_') →
      ∀ ch ∈ Nat.toDigitsCore 10 fuel n ds, ch ≠ '_' := by
  intro fuel
  induction fuel with
  | zero =>
    intro n ds hds
    rw [Nat.toDigitsCore]
    exact hds
  | succ fuel ih =>
    intro n ds hds
    rw [Nat.toDigitsCore]
    have hd : ∀ ch ∈ Nat.digitChar (n % 10) :: ds, ch ≠ '_' := by
      intro ch hch
      rcases List.mem_cons.mp hch with rfl | hch
      · exact digitChar_ne_und (n % 10) (Nat.mod_lt n (by omega))
      · exact hds ch hch
    split
    · exact hd
    · exact ih (n / 10) (Nat.digitChar (n % 10) :: ds) hd

lemma toDigits_clean (n : Nat) : '_' ∉ Nat.toDigits 10 n := by
  intro h
  exact toDigitsCore_clean (n + 1) n [] (by simp) '_' h rfl

lemma intChars_clean (i : Int) : '_' ∉ intChars i := by
  unfold intChars
  split
  · intro h
    rcases List.mem_cons.mp h with he | h
    · exact absurd he (by decide)
    · exact toDigits_clean i.natAbs h
  · exact toDigits_clean i.natAbs

lemma yearStr_clean (i : Int) : '_' ∉ (yearStr i).data :=
  intChars_clean i

lemma ratStr_clean (q : Rat) : '_' ∉ (ratStr q).data := by
  unfold ratStr
  split
  · intro h
    rw [String.data_append] at h
    rcases List.mem_append.mp h with h | h
    · exact yearStr_clean q.num h
    · exact absurd h (by decide)
  · intro h
    rw [String.data_append, String.data_append] at h
    rcases List.mem_append.mp h with h | h
    · rcases List.mem_append.mp h with h | h
      · exact yearStr_clean q.num h
      · exact absurd h (by decide)
    · exact toDigits_clean q.den h

lemma movieBlock_clean (t : String) (info : MovieInfo)
    (ht : '_' ∉ t.data) (hp : '_' ∉ info.poster_url.data) :
    '_' ∉ (movieBlock t info).data := by
  intro h
  unfold movieBlock at h
  by_cases hcond : info.poster_url ≠ "" ∧ info.poster_url ≠ "N/A"
  · rw [if_pos hcond] at h
    simp only [String.data_append, List.mem_append] at h
    casesm* _ ∨ _
    all_goals first
      | exact absurd (by assumption) (by decide)
      | exact ht (by assumption)
      | exact hp (by assumption)
      | exact yearStr_clean info.year (by assumption)
      | exact ratStr_clean info.rating (by assumption)
  · rw [if_neg hcond] at h
    simp only [String.data_append, List.mem_append] at h
    casesm* _ ∨ _
    all_goals first
      | exact absurd (by assumption) (by decide)
      | exact ht (by assumption)
      | exact hp (by assumption)
      | exact yearStr_clean info.year (by assumption)
      | exact ratStr_clean info.rating (by assumption)

lemma movieGrid_clean (movies : List (String × MovieInfo))
    (hm : ∀ p ∈ movies, '_' ∉ p.1.data ∧ '_' ∉ p.2.poster_url.data) :
    '_' ∉ (movieGrid movies).data := by
  have aux : ∀ (ms : List (String × MovieInfo)) (acc : String),
      (∀ p ∈ ms, '_' ∉ p.1.data ∧ '_' ∉ p.2.poster_url.data) →
      '_' ∉ acc.data →
      '_' ∉ (ms.foldl (fun acc p => acc ++ movieBlock p.1 p.2) acc).data := by
    intro ms
    induction ms with
    | nil => intro acc _ hacc; exact hacc
    | cons p ps ih =>
      intro acc hms hacc
      apply ih (acc ++ movieBlock p.1 p.2)
        (fun x hx => hms x (List.mem_cons_of_mem p hx))
      intro h
      rw [String.data_append] at h
      rcases List.mem_append.mp h with h | h
      · exact hacc h
      · exact movieBlock_clean p.1 p.2 (hms p (List.mem_cons_self p ps)).1
          (hms p (List.mem_cons_self p ps)).2 h
  exact aux movies "" hm (by decide)

/-! ## Token occurrence lemmas -/

lemma noOccur_T_clean (s : List Char) (hs : '_' ∉ s) :
    ∀ i, ¬ TITLE_TOKEN <+: s.drop i := by
  have hT : TITLE_TOKEN = '_' :: "_TEMPLATE_TITLE__".toList := by decide
  rw [hT]
  exact noOccur_of_clean '_' _ s hs

lemma noOccur_G_clean (s : List Char) (hs : '_' ∉ s) :
    ∀ i, ¬ GRID_TOKEN <+: s.drop i := by
  have hG : GRID_TOKEN = '_' :: "_TEMPLATE_MOVIE_GRID__".toList := by decide
  rw [hG]
  exact noOccur_of_clean '_' _ s hs

lemma noOccur_title_in_grid (c : List Char) (hc : '_' ∉ c) :
    ∀ i, ¬ TITLE_TOKEN <+: (GRID_TOKEN ++ c).drop i := by
  intro i hp
  by_cases hi : i ≤ GRID_TOKEN.length
  · rw [List.drop_append_of_le_length hi] at hp
    have h2 : TITLE_TOKEN <+: GRID_TOKEN.drop i := by
      have hT : TITLE_TOKEN = "__TEMPLATE_TITLE_".toList ++ ['_'] := by decide
      rw [hT] at hp ⊢
      exact patEnd_through_clean _ '_' _ c hc hp
    have hlen : GRID_TOKEN.length = 23 := by decide
    have hfalse : ∀ j : Nat, j ≤ 23 → ¬ TITLE_TOKEN <+: GRID_TOKEN.drop j := by
      decide
    exact hfalse i (by omega) h2
  · push_neg at hi
    rw [drop_append_past GRID_TOKEN c i (le_of_lt hi)] at hp
    exact noOccur_T_clean c hc (i - GRID_TOKEN.length) hp

lemma pyReplace_skip_T (a s rep : List Char) (ha : '_' ∉ a) :
    pyReplace (a ++ s) TITLE_TOKEN rep = a ++ pyReplace s TITLE_TOKEN rep := by
  have hT : TITLE_TOKEN = '_' :: "_TEMPLATE_TITLE__".toList := by decide
  rw [hT]
  exact pyReplace_skip_clean '_' _ rep a s fun ch hch he => ha (he ▸ hch)

lemma pyReplace_skip_G (a s rep : List Char) (ha : '_' ∉ a) :
    pyReplace (a ++ s) GRID_TOKEN rep = a ++ pyReplace s GRID_TOKEN rep := by
  have hG : GRID_TOKEN = '_' :: "_TEMPLATE_MOVIE_GRID__".toList := by decide
  rw [hG]
  exact pyReplace_skip_clean '_' _ rep a s fun ch hch he => ha (he ▸ hch)

/-- On a well-formed two-token template whose free text has no underscores,
`generate_website` yields exactly the title and grid substitution. -/
lemma generate_website_clean (a b c : List Char)
    (movies : List (String × MovieInfo))
    (ha : '_' ∉ a) (hb : '_' ∉ b) (hc : '_' ∉ c) :
    generate_website (a ++ TITLE_TOKEN ++ b ++ GRID_TOKEN ++ c) movies =
      a ++ "My Movie App".toList ++ b ++ (movieGrid movies).toList ++ c := by
  unfold generate_website
  have e1 : a ++ TITLE_TOKEN ++ b ++ GRID_TOKEN ++ c =
      a ++ (TITLE_TOKEN ++ (b ++ (GRID_TOKEN ++ c))) := by
    simp [List.append_assoc]
  have step1 : pyReplace (a ++ TITLE_TOKEN ++ b ++ GRID_TOKEN ++ c)
      TITLE_TOKEN "My Movie App".toList =
      a ++ ("My Movie App".toList ++ (b ++ (GRID_TOKEN ++ c))) := by
    rw [e1, pyReplace_skip_T a _ _ ha, pyReplace_consume TITLE_TOKEN (by decide),
      pyReplace_skip_T b _ _ hb,
      pyReplace_noOccur TITLE_TOKEN _ (GRID_TOKEN ++ c)
        (noOccur_title_in_grid c hc)]
  rw [step1]
  have e2 : a ++ ("My Movie App".toList ++ (b ++ (GRID_TOKEN ++ c))) =
      (a ++ ("My Movie App".toList ++ b)) ++ (GRID_TOKEN ++ c) := by
    simp [List.append_assoc]
  have hclean : '_' ∉ a ++ ("My Movie App".toList ++ b) := by
    intro h
    rcases List.mem_append.mp h with h | h
    · exact ha h
    rcases List.mem_append.mp h with h | h
    · exact absurd h (by decide)
    · exact hb h
  rw [e2, pyReplace_skip_G _ _ _ hclean,
    pyReplace_consume GRID_TOKEN (by decide),
    pyReplace_noOccur GRID_TOKEN _ c (noOccur_G_clean c hc)]
  simp [List.append_assoc]

set_option maxRecDepth 8192 in
/-- C8 (amended): on any two-token template whose surrounding text is free
of underscores, and any record set whose titles and poster URLs are free of
underscores, the rendered page is the template with the title token replaced
by the page title and the grid token by one block per record, and neither
placeholder token occurs in the output; the grid of an empty record set is
empty; the poster image is omitted exactly when the poster is empty or
"N/A".  (Without the underscore restriction on record fields the
no-token-remaining part fails; see the counterexample.) -/
theorem generate_website_spec (a b c : List Char)
    (movies : List (String × MovieInfo))
    (ha : '_' ∉ a) (hb : '_' ∉ b) (hc : '_' ∉ c)
    (hm : ∀ p ∈ movies, '_' ∉ p.1.data ∧ '_' ∉ p.2.poster_url.data) :
    generate_website (a ++ TITLE_TOKEN ++ b ++ GRID_TOKEN ++ c) movies =
      a ++ "My Movie App".toList ++ b ++ (movieGrid movies).toList ++ c ∧
    (∀ i, ¬ TITLE_TOKEN <+:
      (generate_website (a ++ TITLE_TOKEN ++ b ++ GRID_TOKEN ++ c)
        movies).drop i) ∧
    (∀ i, ¬ GRID_TOKEN <+:
      (generate_website (a ++ TITLE_TOKEN ++ b ++ GRID_TOKEN ++ c)
        movies).drop i) ∧
    movieGrid [] = "" ∧
    ∀ (t : String) (info : MovieInfo),
      info.poster_url = "" ∨ info.poster_url = "N/A" →
      movieBlock t info = movieBlockNoImg t info := by
  have heq := generate_website_clean a b c movies ha hb hc
  have hclean : '_' ∉
      a ++ "My Movie App".toList ++ b ++ (movieGrid movies).toList ++ c := by
    intro h
    rcases List.mem_append.mp h with h | h
    · rcases List.mem_append.mp h with h | h
      · rcases List.mem_append.mp h with h | h
        · rcases List.mem_append.mp h with h | h
          · exact ha h
          · exact absurd h (by decide)
        · exact hb h
      · exact movieGrid_clean movies hm h
    · exact hc h
  refine ⟨heq, ?_, ?_, rfl, ?_⟩
  · rw [heq]
    exact noOccur_T_clean _ hclean
  · rw [heq]
    exact noOccur_G_clean _ hclean
  · intro t info hcond
    have hneg : ¬ (info.poster_url ≠ "" ∧ info.poster_url ≠ "N/A") := by
      rcases hcond with h | h
      · exact fun hc2 => hc2.1 h
      · exact fun hc2 => hc2.2 h
    unfold movieBlock movieBlockNoImg
    rw [if_neg hneg]
    apply String.ext
    simp [String.data_append, List.append_assoc]

set_option maxRecDepth 8192 in
/-- Witness for C8 at a concrete template and one-record set. -/
theorem generate_website_spec_witness :
    ('_' ∉ "<html><h1>".toList ∧ '_' ∉ "</h1><ol>".toList ∧
      '_' ∉ "</ol></html>".toList ∧
      ∀ p ∈ [("Batman", (⟨1989, 5, "N/A"⟩ : MovieInfo))],
        '_' ∉ p.1.data ∧ '_' ∉ p.2.poster_url.data) ∧
    generate_website
        ("<html><h1>".toList ++ TITLE_TOKEN ++ "</h1><ol>".toList ++
          GRID_TOKEN ++ "</ol></html>".toList)
        [("Batman", ⟨1989, 5, "N/A"⟩)] =
      "<html><h1>".toList ++ "My Movie App".toList ++ "</h1><ol>".toList ++
        (movieGrid [("Batman", ⟨1989, 5, "N/A"⟩)]).toList ++
        "</ol></html>".toList :=
  ⟨⟨by decide, by decide, by decide, by decide⟩,
    (generate_website_spec "<html><h1>".toList "</h1><ol>".toList
      "</ol></html>".toList [("Batman", ⟨1989, 5, "N/A"⟩)]
      (by decide) (by decide) (by decide) (by decide)).1⟩

set_option maxRecDepth 8192 in
/-- Counterexample to C8 as frozen: a record titled like the title token
leaves that placeholder token in the output, although the template is a
well-formed two-token template (each token occurs exactly once in it). -/
theorem generate_website_cex :
    countOccur
        ("<html>".toList ++ TITLE_TOKEN ++ "<ol>".toList ++ GRID_TOKEN ++
          "</html>".toList) TITLE_TOKEN = 1 ∧
    countOccur
        ("<html>".toList ++ TITLE_TOKEN ++ "<ol>".toList ++ GRID_TOKEN ++
          "</html>".toList) GRID_TOKEN = 1 ∧
    occursTok TITLE_TOKEN
        (generate_website
          ("<html>".toList ++ TITLE_TOKEN ++ "<ol>".toList ++ GRID_TOKEN ++
            "</html>".toList)
          [("__TEMPLATE_TITLE__", ⟨2000, 5, ""⟩)]) = true :=
  ⟨by decide, by decide, by decide⟩
